import Mathlib

/-
Shallow embedding of `jedi/evaluate/representation.py` (the representation and
evaluation object model of the jedi static-analysis engine), together with
models of the two collaborators it relies on that live elsewhere in the
repository (the identity cache of `jedi/evaluate/cache.py` and the recursion
guard of `jedi/evaluate/recursion.py`, both modelled from the specification).

Python values that flow through the evaluator are modelled by the inductive
type `Val`; syntax nodes are modelled by small structures carrying exactly the
fields the embedded functions read; the expression evaluator (`eval_statement`,
`execute`, `find_types`), an external collaborator, is a parameter (a structure
of functions).  Machine-level identity of Python objects is modelled by `Nat`
identifiers.
-/

set_option autoImplicit false

namespace JediRepr

/-- A value manipulated by the evaluator.  `prFunc` is a raw `pr.Function`
syntax node (by identity); `func` is a `representation.Function` wrapper with
its `is_decorated` flag; `instElem` is an `InstanceElement` wrapper binding a
value to an instance (by identity); `cls` is a `representation.Class` wrapper
over a `pr.Class` node (by identity); `compiled` is a
`compiled.CompiledObject`; `generator` is an `iterable.Generator` wrapping a
function and its argument list (both by identity); `other` is any other
evaluator value. -/
inductive Val where
  | prFunc (id : Nat)
  | func (base : Val) (is_decorated : Bool)
  | instElem (inst : Nat) (var : Val)
  | cls (id : Nat)
  | compiled (id : Nat)
  | generator (func : Nat) (args : Nat)
  | other (id : Nat)
  deriving DecidableEq, Repr

/-- `isinstance(v, Class)` for evaluator values: only `representation.Class`
wrappers qualify (an `InstanceElement` is not a `Class`). -/
def Val.isCls : Val → Bool
  | .cls _ => true
  | _ => false

/-- `isinstance(v, pr.Function)`: true exactly for raw `pr.Function` syntax
nodes (a `representation.Function` wrapper is not a `pr.Function`). -/
def Val.isPrFunc : Val → Bool
  | .prFunc _ => true
  | _ => false

/-- The method `v.isinstance(Function)`: a `representation.Function` inherits
`pr.Base.isinstance`, so a `func` wrapper answers true; an `InstanceElement`
delegates the check to its wrapped `var`; every other value answers false. -/
def Val.isinstanceFunc : Val → Bool
  | .func _ _ => true
  | .instElem _ v => v.isinstanceFunc
  | _ => false

/-- The external expression evaluator (an interface-only collaborator in the
spec): `eval_statement` resolves a statement (by identity) to candidate
values, `execute` calls a callable with arguments, and `find_types` looks a
name up in the builtin module scope (the only scope the embedded code passes
to it). -/
structure Evaluator where
  eval_statement : Nat → List Val
  execute : Val → List Val → List Val
  find_types : String → List Val

/-! ## `Class.get_subscope_by_name` (C10)

A subscope of a class body, as read by `get_subscope_by_name`: only its
name (`sub.name.get_code()`) and its identity are relevant. -/

structure SubScope where
  name : String
  id : Nat
  deriving DecidableEq, Repr

/-- `Class.get_subscope_by_name`: iterate over `reversed(self.subscopes)`,
return the first subscope whose name code equals `name`; raise `KeyError`
(modelled as `Except.error ()`) when none matches. -/
def get_subscope_by_name (subscopes : List SubScope) (name : String) :
    Except Unit SubScope :=
  match subscopes.reverse.find? (fun sub => sub.name == name) with
  | some sub => Except.ok sub
  | none => Except.error ()

/-! ## The identity cache (C2) -/

/-- Composite key of the identity cache: entity kind tag (`Class`,
`Function`, `Instance`, `InstanceElement`), evaluator identity, underlying
syntax-node identity, and a normalized representation of the extra
constructor arguments. -/
structure EntityKey where
  kind : Nat
  evaluator : Nat
  node : Nat
  extraArgs : List Nat
  deriving DecidableEq, Repr

/-- Modelled from the spec: the identity cache of `jedi/evaluate/cache.py`
(`CachedMetaClass` backed by `memoize_default`), which is not part of the
sources under verification.  It is an append-only table from composite keys
to entities, owned by the evaluation context. -/
structure IdentityCache (V : Type) where
  entries : List (EntityKey × V)

/-- Modelled from the spec: `get_or_create(kind, key_parts...) -> entity`.
If the key is present, the cached entity is returned and the cache is
unchanged; otherwise the entity is built once and recorded. -/
def get_or_create {V : Type} (c : IdentityCache V) (k : EntityKey)
    (build : Unit → V) : V × IdentityCache V :=
  match c.entries.lookup k with
  | some v => (v, c)
  | none =>
    let v := build ()
    (v, ⟨(k, v) :: c.entries⟩)

/-! ## `Function._decorated_func` / `Function.get_decorated_func` (C3, C4, C5)

The decorator resolver of `representation.Function`.  A `pr.Function` node is
read through its identity and its list of decorator statements (in syntactic
order, outermost first). -/

structure PrFunc where
  id : Nat
  decorators : List Nat
  deriving DecidableEq, Repr

/-- Diagnostics recorded by `debug.warning` during decorator resolution. -/
inductive Warn where
  | decoratorNotFound (dec : Nat)
  | multipleDecorators (dec : Nat)
  | noWrappers
  | multipleWrappers
  deriving DecidableEq, Repr

/-- The body of the `for dec in reversed(self.base_func.decorators)` loop of
`Function._decorated_func`, one decorator statement at a time.  `f` is the
working function value, `inst` the pending instance (set to `None` once it is
consumed), `ws` the warnings recorded so far.  `set(...)` followed by `.pop()`
is modelled by deduplicating the candidate list and taking its head; a warning
is recorded when further distinct candidates remain.  Failure (`return None`
in the source) is `none`. -/
def decorated_loop (ev : Evaluator) :
    List Nat → Val → Option Nat → List Warn → Option Val × List Warn
  | [], f, _, ws => (some f, ws)
  | dec :: rest, f, inst, ws =>
    match (ev.eval_statement dec).dedup with
    | [] => (none, ws ++ [Warn.decoratorNotFound dec])
    | decorator :: others =>
      let ws1 := if others.isEmpty then ws else ws ++ [Warn.multipleDecorators dec]
      let old0 := Val.func f true
      let step : Val × Option Nat :=
        match inst with
        | some i =>
          if decorator.isinstanceFunc then (Val.instElem i old0, none)
          else (old0, some i)
        | none => (old0, none)
      match ev.execute decorator [step.1] with
      | [] => (none, ws1 ++ [Warn.noWrappers])
      | w :: wrest =>
        let ws2 := if wrest.isEmpty then ws1 else ws1 ++ [Warn.multipleWrappers]
        decorated_loop ev rest w step.2 ws2

/-- `Function._decorated_func`: run the decorator loop over the reversed
decorator list unless the function is already marked decorated; afterwards,
when the result differs from the base node but is itself a raw `pr.Function`
node, wrap it in a fresh `representation.Function`. -/
def decorated_func (ev : Evaluator) (base : PrFunc) (is_decorated : Bool)
    (inst : Option Nat) : Option Val × List Warn :=
  let f0 := Val.prFunc base.id
  let r :=
    if is_decorated then (some f0, ([] : List Warn))
    else decorated_loop ev base.decorators.reverse f0 inst []
  match r with
  | (none, ws) => (none, ws)
  | (some f, ws) =>
    if f ≠ f0 ∧ f.isPrFunc then
      (some (Val.func f false), ws)
    else (some f, ws)

/-- `Function.get_decorated_func`: when resolution yields the base node
itself, return `self` (the `Function` wrapper with its current flag); when it
failed (`None`), fall back to a fresh `Function` over the base node marked
`is_decorated=True`; otherwise return the resolved value. -/
def get_decorated_func (ev : Evaluator) (base : PrFunc) (is_decorated : Bool)
    (inst : Option Nat) : Val × List Warn :=
  match decorated_func ev base is_decorated inst with
  | (none, ws) => (Val.func (Val.prFunc base.id) true, ws)
  | (some f, ws) =>
    if f = Val.prFunc base.id then (Val.func (Val.prFunc base.id) is_decorated, ws)
    else (f, ws)

/-! ## `Class.get_super_classes` (C6)

A `pr.Class` node as read by `get_super_classes`: its identity, its
super-class statements (by identity, in declaration order), and whether its
parent scope is the builtin module (`self.base.parent == compiled.builtin`). -/

structure PrClass where
  id : Nat
  supers : List Nat
  parentIsBuiltin : Bool
  deriving DecidableEq, Repr

/-- `Class.get_super_classes`: evaluate every super-class statement, keep only
`Class` results (everything else is dropped with a soft warning); when nothing
was collected and the class is not itself rooted in the builtin module, append
`find_types(compiled.builtin, 'object')`. -/
def get_super_classes (ev : Evaluator) (base : PrClass) : List Val :=
  let supers := base.supers.foldl
    (fun acc s => acc ++ (ev.eval_statement s).filter Val.isCls) []
  if supers.isEmpty ∧ ¬ base.parentIsBuiltin then
    supers ++ ev.find_types "object"
  else supers

/-! ## `Class.instance_names` (C7)

A defined name, as the parser produces it: its dotted segments
(`name.names`) and an identifier standing for the identity of the defining
occurrence (so that two definitions of the same textual name are
distinguishable). -/

structure DefName where
  names : List String
  defSite : Nat
  deriving DecidableEq, Repr

/-- A class hierarchy with its super classes already resolved (the result of
`get_super_classes` followed by the recursive calls the source makes on each
resolved super class): either a `compiled.CompiledObject` base, exposing only
`get_defined_names()`, or a source class with its own defined names
(`self.base.get_defined_names()`) and its resolved super classes in traversal
order. -/
inductive ClassH where
  | compiledC (defined : List DefName)
  | classC (own : List DefName) (supers : List ClassH)

/-- Whether a resolved super class is a source class (as opposed to a
`compiled.CompiledObject`). -/
def ClassH.isSource : ClassH → Bool
  | .classC _ _ => true
  | .compiledC _ => false

/-- The helper `in_iterable` of `Class.instance_names`: a name is "in" the
iterable when some element shares its final name segment. -/
def in_iterable (name : DefName) (it : List DefName) : Bool :=
  it.any (fun i => i.names.getLast? == name.names.getLast?)

mutual

/-- `Class.instance_names`: start from the class's own defined names
(`result`); for each super class, append all names directly when it is a
compiled object, otherwise append those of its (recursively merged)
`instance_names` whose final segment is not `in_iterable` of `result` — note
that `result` still holds only the class's own names while the loop runs,
since the collected `super_result` is appended only after the loop. -/
def instance_names : ClassH → List DefName
  | .compiledC defined => defined
  | .classC own supers => own ++ super_names own supers

/-- The `for cls in self.get_super_classes()` loop of `instance_names`,
accumulating `super_result`; the `in_iterable` check is made against `own`,
the class's own names, which the loop never extends. -/
def super_names (own : List DefName) : List ClassH → List DefName
  | [] => []
  | .compiledC defined :: rest => defined ++ super_names own rest
  | .classC o2 s2 :: rest =>
    (instance_names (.classC o2 s2)).filter (fun i => ¬ in_iterable i own)
      ++ super_names own rest

end

/-! ## `Instance.get_self_attributes` (C8)

A method subscope as read by `get_self_attributes`: the names of its declared
parameters (the first one plays the role of `self`), the code of its name, its
decorator statements and the names its body assigns (`get_set_vars` of the
static `pr.Function`). -/

structure MethodScope where
  paramNames : List String
  funcName : String
  decorators : List Nat
  set_vars : List DefName
  deriving DecidableEq, Repr

/-- A subscope of a class body: a nested `pr.Class` (skipped by the
self-attribute scan) or a method. -/
inductive SubH where
  | classSub (id : Nat)
  | funcSub (m : MethodScope)
  deriving DecidableEq, Repr

/-- An instance's class with its super classes resolved and executed: the
source iterates `self.base.get_super_classes()` and, for each, the instances
produced by `self._evaluator.execute(s)` — modelled as one instance per
resolved super class. -/
inductive SClass where
  | mk (subscopes : List SubH) (supers : List SClass)

/-- The filter-and-rewrite step of `get_self_attributes`: keep exactly the
assigned names of the form `<self>.<attr>` (first segment the self name,
exactly two segments) and drop the leading self segment
(`add_self_dot_name`). -/
def add_self_dot_names (selfName : String) (vars : List DefName) : List DefName :=
  (vars.filter (fun n =>
    n.names.head? == some selfName && n.names.length == 2)).map
    (fun n => { n with names := n.names.tail })

/-- The first loop of `Instance.get_self_attributes`, over the class's own
subscopes: nested classes are skipped; a method with no parameters has no
self name and is skipped; an undecorated `__init__` is executed, so its
variables are the execution's `get_set_vars` (the injected parameters plus
the copied body's assigned names); every other method contributes its static
assigned names.  The qualifying names are rewritten by
`add_self_dot_names`. -/
def self_attributes_own (subs : List SubH) : List DefName :=
  subs.foldl (fun names sub =>
    match sub with
    | .classSub _ => names
    | .funcSub m =>
      match m.paramNames.head? with
      | none => names
      | some selfName =>
        let vars :=
          if m.funcName == "__init__" && m.decorators.isEmpty then
            m.paramNames.map (fun p => DefName.mk [p] 0) ++ m.set_vars
          else m.set_vars
        names ++ add_self_dot_names selfName vars) []

mutual

/-- `Instance.get_self_attributes`: the names found in the instance's own
class extended, super class by super class in declaration order, with the
recursively collected self attributes of each super-class instance. -/
def get_self_attributes : SClass → List DefName
  | .mk subs supers =>
    self_attributes_own subs ++ super_self_attributes supers

/-- The `for s in self.base.get_super_classes()` loop of
`get_self_attributes`, in declaration order. -/
def super_self_attributes : List SClass → List DefName
  | [] => []
  | s :: rest => get_self_attributes s ++ super_self_attributes rest

end

/-! ## `FunctionExecution.get_return_types` and the recursion guard (C1, C9) -/

/-- The in-flight key tracked by the recursion guard: the executed callable
and its argument list, both by identity. -/
structure ExecKey where
  func : Nat
  args : Nat
  deriving DecidableEq, Repr

/-- Modelled from the spec: the recursion guard of
`jedi/evaluate/recursion.py` (`execution_recursion_decorator`), which is not
part of the sources under verification.  It wraps a computation keyed by
`(callable, arguments)`: if the key is already on the per-evaluation-context
stack, the computation is skipped and the empty result set is returned
immediately; otherwise the computation runs with the key pushed (and the key
is popped on exit, which the functional reading renders by passing the
extended stack only to the body). -/
def execution_recursion_guard (key : ExecKey) (stack : List ExecKey)
    (body : List ExecKey → List Val) : List Val :=
  if key ∈ stack then [] else body (key :: stack)

/-- A `FunctionExecution` as read by `get_return_types`: the executed
function and argument list (by identity), the function's `is_generator`
flag, the execution's copied return statements (`self.returns`, possibly
containing `None`), and the result of the external
`docstrings.find_return_types` collaborator. -/
structure FunctionExecutionM where
  funcId : Nat
  argsId : Nat
  is_generator : Bool
  returns : List (Option Nat)
  docstringTypes : List Val
  deriving DecidableEq, Repr

/-- The key of an execution. -/
def FunctionExecutionM.key (ex : FunctionExecutionM) : ExecKey :=
  ⟨ex.funcId, ex.argsId⟩

/-- `FunctionExecution.get_return_types`, wrapped by the recursion guard.
Inside the guard: if the function is a generator and the caller did not
request generator unwrapping, return exactly one `Generator` value wrapping
this call; otherwise start from the docstring-inferred types and append the
evaluation of every non-`None` copied return statement.  Because recursion
into the same execution flows through the expression evaluator, statement
evaluation receives the current in-flight stack. -/
def get_return_types (evalStmt : List ExecKey → Nat → List Val)
    (ex : FunctionExecutionM) (stack : List ExecKey)
    (evaluate_generator : Bool) : List Val :=
  execution_recursion_guard ex.key stack (fun stack1 =>
    if ex.is_generator && !evaluate_generator then
      [Val.generator ex.funcId ex.argsId]
    else
      ex.returns.foldl (fun stmts r =>
        match r with
        | none => stmts
        | some rid => stmts ++ evalStmt stack1 rid) ex.docstringTypes)

/-! ## Concrete models used to instantiate the theorems -/

/-- An evaluator in which statement `1` resolves to one decorator callable
and statement `2` to another, and each callable wraps its single argument
into a fresh value: calling the first callable on the pre-decoration function
yields value `11`, and calling the second callable on a function wrapping
value `11` yields value `21`. -/
def evTwoDecorators : Evaluator where
  eval_statement := fun d =>
    if d = 1 then [Val.other 1] else if d = 2 then [Val.other 2] else []
  execute := fun c args =>
    if c = Val.other 1 ∧ args = [Val.func (Val.prFunc 0) true] then [Val.other 11]
    else if c = Val.other 2 ∧ args = [Val.func (Val.other 11) true] then [Val.other 21]
    else []
  find_types := fun _ => []

/-- An evaluator in which every decorator statement resolves to two distinct
candidate callables, the first of which wraps the pre-decoration function
into value `11`. -/
def evAmbiguousDecorator : Evaluator where
  eval_statement := fun _ => [Val.other 1, Val.other 2]
  execute := fun c args =>
    if c = Val.other 1 ∧ args = [Val.func (Val.prFunc 0) true] then [Val.other 11]
    else []
  find_types := fun _ => []

/-- An evaluator in which every statement resolves to no candidates at
all. -/
def evEmpty : Evaluator where
  eval_statement := fun _ => []
  execute := fun _ _ => []
  find_types := fun _ => []

/-- An evaluator whose builtin-scope lookup of the name `object` yields the
single universal base class (class node `100`). -/
def evObjectBase : Evaluator where
  eval_statement := fun _ => []
  execute := fun _ _ => []
  find_types := fun n => if n = "object" then [Val.cls 100] else []

/-- A statement evaluation in which every statement evaluates to no
candidate values. -/
def evalStmtEmpty : List ExecKey → Nat → List Val := fun _ _ => []

/-- A directly self-recursive function execution: function `5` called with
argument list `9`, not a generator, with no docstring-inferred types and one
return statement (`3`) whose evaluation is exactly the recursive call. -/
def exSelfRec : FunctionExecutionM :=
  ⟨5, 9, false, [some 3], []⟩

/-- An execution of a generator function (function `6`, argument list
`2`). -/
def exGen : FunctionExecutionM :=
  ⟨6, 2, true, [], []⟩

/-! ## Theorems -/

/-- C10: `Class.get_subscope_by_name` searches the class's subscopes in
reverse declaration order and returns the latest-declared subscope whose name
matches: a returned subscope has the requested name and no later-declared
subscope matches it; and it raises `KeyError` exactly when no subscope has
that name. -/
theorem get_subscope_by_name_spec (subs : List SubScope) (n : String) :
    (∀ s, get_subscope_by_name subs n = Except.ok s →
      s.name = n ∧ ∃ pre post, subs = pre ++ s :: post ∧ ∀ t ∈ post, t.name ≠ n)
    ∧ (get_subscope_by_name subs n = Except.error () ↔ ∀ t ∈ subs, t.name ≠ n) := by
  constructor
  · intro s hs
    unfold get_subscope_by_name at hs
    split at hs
    · next s2 hfind =>
      injection hs with h
      subst h
      rw [List.find?_eq_some] at hfind
      obtain ⟨hp, as, bs, hrev, hall⟩ := hfind
      refine ⟨by simpa using hp, bs.reverse, as.reverse, ?_, ?_⟩
      · have h2 := congrArg List.reverse hrev
        simpa using h2
      · intro t ht
        have hmem : t ∈ as := by simpa using ht
        have := hall t hmem
        simpa using this
    · next hfind => exact absurd hs (by simp)
  · unfold get_subscope_by_name
    split
    · next s2 hfind =>
      constructor
      · intro h; exact absurd h (by simp)
      · intro hall
        exfalso
        have hmem := List.mem_of_find?_eq_some hfind
        have hp := List.find?_some hfind
        have hname : s2.name = n := by simpa using hp
        exact hall s2 (by simpa using hmem) hname
    · next hfind =>
      rw [List.find?_eq_none] at hfind
      constructor
      · intro _ t ht
        have := hfind t (by simpa using ht)
        simpa using this
      · intro _; rfl

/-- Witness for C10: in a class body defining the method `m` twice, lookup of
`m` resolves to the later declaration (subscope `2`). -/
theorem get_subscope_by_name_spec_witness :
    (SubScope.mk "m" 2).name = "m"
    ∧ ∃ pre post, [SubScope.mk "m" 1, SubScope.mk "m" 2]
        = pre ++ SubScope.mk "m" 2 :: post ∧ ∀ t ∈ post, t.name ≠ "m" :=
  (get_subscope_by_name_spec [SubScope.mk "m" 1, SubScope.mk "m" 2] "m").1
    (SubScope.mk "m" 2) rfl

/-- C2: the identity cache returns the same object for the lifetime of the
evaluation context — constructing an entity twice with the same composite key
(kind, evaluator, underlying node, extra constructor arguments) yields the
identical cached entity, regardless of the builder passed the second time. -/
theorem get_or_create_identity {V : Type} (c : IdentityCache V) (k : EntityKey)
    (b1 b2 : Unit → V) :
    (get_or_create (get_or_create c k b1).2 k b2).1 = (get_or_create c k b1).1 := by
  unfold get_or_create
  cases h : c.entries.lookup k with
  | some v => simp [h]
  | none => simp [h, List.lookup]

/-- C3: decorator resolution walks the decorator list in reverse syntactic
order, so the innermost (last-declared) decorator is applied first: for a
function with decorator statements `[d2, d1]` (outer `d2` declared first),
where `d1` resolves to callable `D1` and `d2` to `D2`, the effective callable
is `w2`, obtained by executing `D2` on the result `w1` of executing `D1` on
the original function — that is, `dec2(dec1(f))`. -/
theorem decorator_order (ev : Evaluator) (fid d1 d2 : Nat) (D1 D2 w1 w2 : Val)
    (h1 : (ev.eval_statement d1).dedup = [D1])
    (h2 : (ev.eval_statement d2).dedup = [D2])
    (hw1 : ev.execute D1 [Val.func (Val.prFunc fid) true] = [w1])
    (hw2 : ev.execute D2 [Val.func w1 true] = [w2])
    (hnp : w2.isPrFunc = false) :
    get_decorated_func ev ⟨fid, [d2, d1]⟩ false none = (w2, []) := by
  simp [get_decorated_func, decorated_func, decorated_loop, h1, h2, hw1, hw2, hnp]
  intro h
  subst h
  simp [Val.isPrFunc] at hnp

/-- Witness for C3: in `evTwoDecorators`, the function decorated with
`[d2, d1] = [2, 1]` resolves to value `21 = dec2(dec1(f))`, the result of
applying the second-statement callable to the first-statement callable's
result. -/
theorem decorator_order_witness :
    get_decorated_func evTwoDecorators ⟨0, [2, 1]⟩ false none
      = (Val.other 21, []) :=
  decorator_order evTwoDecorators 0 1 2 (Val.other 1) (Val.other 2)
    (Val.other 11) (Val.other 21) (by decide) (by decide) (by decide)
    (by decide) rfl

/-- C4: when a decorator expression evaluates to more than one candidate
callable, resolution picks the first candidate, records a
`multipleDecorators` diagnostic, and continues to a successful result — the
multiplicity is never fatal. -/
theorem decorator_multiple_candidates (ev : Evaluator) (fid dec : Nat)
    (c1 : Val) (cs : List Val) (w : Val)
    (hc : (ev.eval_statement dec).dedup = c1 :: cs) (hcs : cs ≠ [])
    (hw : ev.execute c1 [Val.func (Val.prFunc fid) true] = [w])
    (hnp : w.isPrFunc = false) :
    get_decorated_func ev ⟨fid, [dec]⟩ false none
      = (w, [Warn.multipleDecorators dec]) := by
  simp [get_decorated_func, decorated_func, decorated_loop, hc, hcs, hw, hnp]
  intro h
  subst h
  simp [Val.isPrFunc] at hnp

/-- Witness for C4: in `evAmbiguousDecorator`, where the decorator statement
has two candidates, resolution succeeds with the first candidate's wrapper
and a recorded diagnostic. -/
theorem decorator_multiple_candidates_witness :
    get_decorated_func evAmbiguousDecorator ⟨0, [7]⟩ false none
      = (Val.other 11, [Warn.multipleDecorators 7]) :=
  decorator_multiple_candidates evAmbiguousDecorator 0 7 (Val.other 1)
    [Val.other 2] (Val.other 11) (by decide) (by decide) (by decide) rfl

/-- C5: when a decorator expression evaluates to no candidates, or invoking
the chosen decorator yields no wrappers, `get_decorated_func` falls back to
the original function marked `is_decorated`; and a function so marked
resolves without consulting the evaluator at all (for every evaluator the
loop is skipped), so the failed resolution is not retried. -/
theorem decorator_failure_fallback (ev : Evaluator) (base : PrFunc) (dec : Nat)
    (rest : List Nat)
    (hdecs : base.decorators.reverse = dec :: rest)
    (hfail : (ev.eval_statement dec).dedup = [] ∨
      ∃ c cs, (ev.eval_statement dec).dedup = c :: cs ∧
        ev.execute c [Val.func (Val.prFunc base.id) true] = []) :
    (get_decorated_func ev base false none).1 = Val.func (Val.prFunc base.id) true
    ∧ ∀ (ev2 : Evaluator) (inst : Option Nat),
        get_decorated_func ev2 base true inst
          = (Val.func (Val.prFunc base.id) true, []) := by
  constructor
  · rcases hfail with hempty | ⟨c, cs, hc, hexec⟩
    · simp [get_decorated_func, decorated_func, decorated_loop, hdecs, hempty]
    · simp [get_decorated_func, decorated_func, decorated_loop, hdecs, hc, hexec]
  · intro ev2 inst
    simp [get_decorated_func, decorated_func]

/-- Witness for C5: in `evEmpty`, where the decorator statement has no
candidates, the function falls back to itself marked as already resolved. -/
theorem decorator_failure_fallback_witness :
    (get_decorated_func evEmpty ⟨3, [4]⟩ false none).1
      = Val.func (Val.prFunc 3) true
    ∧ ∀ (ev2 : Evaluator) (inst : Option Nat),
        get_decorated_func ev2 ⟨3, [4]⟩ true inst
          = (Val.func (Val.prFunc 3) true, []) :=
  decorator_failure_fallback evEmpty ⟨3, [4]⟩ 4 [] (by decide)
    (Or.inl (by decide))

/-- C6: a class that declares no super-class expressions and is not rooted in
the builtin module gets exactly one synthesized super class, the universal
base `object` type found in the builtin scope. -/
theorem implicit_object_base (ev : Evaluator) (base : PrClass) (obj : Val)
    (hsup : base.supers = []) (hpar : base.parentIsBuiltin = false)
    (hobj : ev.find_types "object" = [obj]) :
    get_super_classes ev base = [obj] := by
  simp [get_super_classes, hsup, hpar, hobj]

/-- Witness for C6: in `evObjectBase`, a class (node `50`) with no declared
super classes resolves to exactly the universal base class `100`. -/
theorem implicit_object_base_witness :
    get_super_classes evObjectBase ⟨50, [], false⟩ = [Val.cls 100] :=
  implicit_object_base evObjectBase ⟨50, [], false⟩ (Val.cls 100) rfl rfl
    (by decide)

/-- C7 counterexample: the inherited-member filter is applied against the
class's own names only, not against the already-accumulated members.  For
`B(A, C)` where `A` and `C` both define `z` and `B` does not, the merged
member list keeps both inherited `z`s (definition sites `1` and `2`),
contradicting the claim that a member whose final name segment is already
present among the accumulated members is not appended. -/
theorem instance_names_no_accumulated_filter :
    instance_names (.classC []
        [.classC [⟨["z"], 1⟩] [], .classC [⟨["z"], 2⟩] []])
      = [⟨["z"], 1⟩, ⟨["z"], 2⟩]
    ∧ (instance_names (.classC []
        [.classC [⟨["z"], 1⟩] [], .classC [⟨["z"], 2⟩] []])).countP
        (fun i => i.names.getLast? == some "z") = 2 := by
  constructor
  · rfl
  · rfl

/-- C7 amended: every member inherited from a source super class has a final
name segment not present among the class's *own* declared members (own
definitions win; members inherited from different super classes are not
filtered against each other); in particular, for `A` and `C` both defining
`y` and `B(A, C)` also defining `y` directly (definition site `0`), `B`'s
merged member list contains exactly one `y`, bound to `B`'s own
definition. -/
theorem instance_names_own_filter (own : List DefName) (supers : List ClassH)
    (hsrc : ∀ s ∈ supers, s.isSource = true) :
    (∀ i ∈ super_names own supers, in_iterable i own = false)
    ∧ instance_names (.classC [⟨["y"], 0⟩]
        [.classC [⟨["y"], 1⟩] [], .classC [⟨["y"], 2⟩] []])
      = [⟨["y"], 0⟩] := by
  constructor
  · intro i hi
    induction supers with
    | nil => simp [super_names] at hi
    | cons s rest ih =>
      have hs := hsrc s (by simp)
      cases s with
      | compiledC defined => simp [ClassH.isSource] at hs
      | classC o2 s2 =>
        simp only [super_names, List.mem_append] at hi
        rcases hi with hi | hi
        · have := List.of_mem_filter hi
          simpa using this
        · exact ih (fun t ht => hsrc t (by simp [ht])) hi
  · rfl

/-- Witness for C7 (amended): with `B`'s own `y` (site `0`) and source super
classes `A`, `C` each defining `y`, no inherited member escapes the
own-name filter, and the merged list is exactly `B`'s own `y`. -/
theorem instance_names_own_filter_witness :
    (∀ i ∈ super_names [DefName.mk ["y"] 0]
        [ClassH.classC [DefName.mk ["y"] 1] [],
         ClassH.classC [DefName.mk ["y"] 2] []],
      in_iterable i [DefName.mk ["y"] 0] = false)
    ∧ instance_names (.classC [⟨["y"], 0⟩]
        [.classC [⟨["y"], 1⟩] [], .classC [⟨["y"], 2⟩] []])
      = [⟨["y"], 0⟩] :=
  instance_names_own_filter [DefName.mk ["y"] 0]
    [ClassH.classC [DefName.mk ["y"] 1] [],
     ClassH.classC [DefName.mk ["y"] 2] []]
    (by decide)

/-- Membership transports through the super-class collection loop of
`get_self_attributes`. -/
lemma mem_super_self_attributes {s : SClass} {supers : List SClass}
    {n : DefName} (hs : s ∈ supers) (hn : n ∈ get_self_attributes s) :
    n ∈ super_self_attributes supers := by
  induction supers with
  | nil => cases hs
  | cons t rest ih =>
    rcases List.mem_cons.mp hs with h | h
    · subst h
      simp [super_self_attributes, hn]
    · simp [super_self_attributes, ih h]

/-- C8: `get_self_attributes` extends the attributes discovered from the
instance's own class (every own attribute is in the result) with the
recursively collected self attributes of every super-class instance (every
attribute of any super class's instance is in the result). -/
theorem self_attributes_propagation (subs : List SubH) (supers : List SClass)
    (s : SClass) (hs : s ∈ supers) :
    (∀ n ∈ self_attributes_own subs, n ∈ get_self_attributes (.mk subs supers))
    ∧ (∀ n ∈ get_self_attributes s, n ∈ get_self_attributes (.mk subs supers)) := by
  constructor
  · intro n hn
    simp [get_self_attributes, hn]
  · intro n hn
    simp [get_self_attributes]
    exact Or.inr (mem_super_self_attributes hs hn)

/-- Witness for C8: class `A` has a constructor assigning `self.x` (site
`7`); class `B` subclasses `A` with no constructor of its own; a `B`
instance's attribute set contains `x`. -/
theorem self_attributes_propagation_witness :
    DefName.mk ["x"] 7 ∈ get_self_attributes (SClass.mk []
      [SClass.mk [SubH.funcSub ⟨["self"], "__init__", [],
        [⟨["self", "x"], 7⟩]⟩] []]) :=
  (self_attributes_propagation []
      [SClass.mk [SubH.funcSub ⟨["self"], "__init__", [],
        [⟨["self", "x"], 7⟩]⟩] []]
      (SClass.mk [SubH.funcSub ⟨["self"], "__init__", [],
        [⟨["self", "x"], 7⟩]⟩] [])
      (List.mem_cons_self _ _)).2
    (DefName.mk ["x"] 7) (by decide)

/-- An evaluation model in which every statement evaluates to nothing always
yields an empty return-type set for `exSelfRec`, whatever the in-flight
stack. -/
lemma get_return_types_evalStmtEmpty (st : List ExecKey) :
    get_return_types evalStmtEmpty exSelfRec st false = [] := by
  by_cases h : exSelfRec.key ∈ st
  · simp [get_return_types, execution_recursion_guard, h]
  · simp [get_return_types, execution_recursion_guard, h, exSelfRec,
      evalStmtEmpty]

/-- C1: the recursion guard makes cyclically recursive evaluation terminate
with an empty result.  Whenever an execution's `(callable, arguments)` key is
already on the in-flight stack, `get_return_types` returns the empty result
set immediately; and for a non-generator execution with no docstring types
whose single return statement evaluates to exactly the recursive call of the
same execution, `get_return_types` returns the empty result set from any
starting stack. -/
theorem cycle_termination (evalStmt : List ExecKey → Nat → List Val)
    (ex : FunctionExecutionM) (rid : Nat)
    (hgen : ex.is_generator = false) (hdoc : ex.docstringTypes = [])
    (hret : ex.returns = [some rid])
    (hrec : ∀ st, evalStmt st rid = get_return_types evalStmt ex st false) :
    (∀ (ex2 : FunctionExecutionM) (st : List ExecKey) (eg : Bool),
        ex2.key ∈ st → get_return_types evalStmt ex2 st eg = [])
    ∧ ∀ st, get_return_types evalStmt ex st false = [] := by
  have hguard : ∀ (ex2 : FunctionExecutionM) (st : List ExecKey) (eg : Bool),
      ex2.key ∈ st → get_return_types evalStmt ex2 st eg = [] := by
    intro ex2 st eg hmem
    simp [get_return_types, execution_recursion_guard, hmem]
  refine ⟨hguard, ?_⟩
  intro st
  by_cases hmem : ex.key ∈ st
  · exact hguard ex st false hmem
  · have hrec2 : evalStmt (ex.key :: st) rid = [] := by
      rw [hrec]
      exact hguard ex (ex.key :: st) false (by simp)
    simp [get_return_types, execution_recursion_guard, hmem, hgen, hdoc,
      hret, hrec2]

/-- Witness for C1: the self-recursive execution `exSelfRec`, whose only
return statement evaluates to its own recursive call, yields the empty
result set from the empty stack. -/
theorem cycle_termination_witness :
    get_return_types evalStmtEmpty exSelfRec [] false = [] :=
  (cycle_termination evalStmtEmpty exSelfRec 3 rfl rfl rfl
    (fun st => (get_return_types_evalStmtEmpty st).symm)).2 []

/-- C9: executing a generator function without requesting generator
unwrapping returns exactly one result, a generator value wrapping that
call's function and argument list, not the concrete return or yield value
types. -/
theorem generator_short_circuit (evalStmt : List ExecKey → Nat → List Val)
    (ex : FunctionExecutionM) (stack : List ExecKey)
    (hst : ex.key ∉ stack) (hgen : ex.is_generator = true) :
    get_return_types evalStmt ex stack false
      = [Val.generator ex.funcId ex.argsId] := by
  simp [get_return_types, execution_recursion_guard, hst, hgen]

/-- Witness for C9: the generator execution `exGen` yields exactly one
generator value wrapping function `6` and argument list `2`. -/
theorem generator_short_circuit_witness :
    get_return_types evalStmtEmpty exGen [] false = [Val.generator 6 2] :=
  generator_short_circuit evalStmtEmpty exGen [] (by decide) rfl

end JediRepr
